import Mathlib

/-!
Verification of the orrery coordinate/rotation core against its source.

The development shallowly embeds the parts of `sphere.py`, `objects.py`,
`observer.py` and `utils.py` that the checked claims speak about.  Python
floats are modelled by exact numbers: rational numbers where the code only
adds, multiplies and compares (matrix validation, composition, catalogs),
and real numbers where the code calls into trigonometry (`SpherePoint`,
`Rotation.moveTo`, `Angle` conversions).  A `datetime` is modelled by a
rational time stamp; raising `ValueError` is modelled by `Except.error`.
-/

namespace Orrery

/-- A three dimensional vector, matching the `(x, y, z)` tuples of
`sphere.py` (`Vector = Tuple[float, float, float]`). -/
@[ext]
structure V3 (R : Type) where
  x : R
  y : R
  z : R
deriving DecidableEq

/-- Rows of a rotation matrix, matching `Rotation.__mat`
(`sphere.py` line 483): a triple of row vectors. -/
structure M3 (R : Type) where
  r1 : V3 R
  r2 : V3 R
  r3 : V3 R
deriving DecidableEq

variable {R : Type} [CommRing R]

/-- `Rotation.__dot` (`sphere.py` lines 594-596): the euclidean dot
product of two 3-vectors. -/
def dot (v w : V3 R) : R :=
  v.x * w.x + v.y * w.y + v.z * w.z

/-- The cross product computed inline in `Rotation.moveTo`
(`sphere.py` line 625). -/
def cross (v w : V3 R) : V3 R :=
  ⟨v.y * w.z - v.z * w.y, v.z * w.x - v.x * w.z, v.x * w.y - v.y * w.x⟩

/-- Componentwise vector addition, as used in `Body.position`
(`objects.py` line 177): `(x + px, y + py, z + pz)`. -/
def vadd (v w : V3 R) : V3 R :=
  ⟨v.x + w.x, v.y + w.y, v.z + w.z⟩

/-- Componentwise vector difference, as used in `Observer.toRef`
(`observer.py` line 210): `(x - sx, y - sy, z - sz)`. -/
def vsub (v w : V3 R) : V3 R :=
  ⟨v.x - w.x, v.y - w.y, v.z - w.z⟩

/-- `Rotation.rotate` on a plain vector (`sphere.py` line 698):
dot each row of the matrix with the vector. -/
def rotate (m : M3 R) (v : V3 R) : V3 R :=
  ⟨dot m.r1 v, dot m.r2 v, dot m.r3 v⟩

/-- The raw matrix of `Rotation.__div__` (`sphere.py` line 647):
entry `(i, j)` is the dot product of row `i` of `a` with row `j` of `b`,
so `matDiv a b = a * bᵀ`. -/
def matDiv (a b : M3 R) : M3 R :=
  ⟨⟨dot a.r1 b.r1, dot a.r1 b.r2, dot a.r1 b.r3⟩,
   ⟨dot a.r2 b.r1, dot a.r2 b.r2, dot a.r2 b.r3⟩,
   ⟨dot a.r3 b.r1, dot a.r3 b.r2, dot a.r3 b.r3⟩⟩

/-- The transposed rows built by `Rotation.inverse`
(`sphere.py` lines 653-659). -/
def transposeM (m : M3 R) : M3 R :=
  ⟨⟨m.r1.x, m.r2.x, m.r3.x⟩,
   ⟨m.r1.y, m.r2.y, m.r3.y⟩,
   ⟨m.r1.z, m.r2.z, m.r3.z⟩⟩

/-- The determinant expansion of `Rotation.__check_special`
(`sphere.py` lines 569-571). -/
def det3 (m : M3 R) : R :=
  m.r1.x * (m.r2.y * m.r3.z - m.r3.y * m.r2.z)
    - m.r1.y * (m.r2.x * m.r3.z - m.r3.x * m.r2.z)
    + m.r1.z * (m.r2.x * m.r3.y - m.r3.x * m.r2.y)

/-- The identity matrix, the value produced by `Rotation.identity()`. -/
def idM : M3 R :=
  ⟨⟨1, 0, 0⟩, ⟨0, 1, 0⟩, ⟨0, 0, 1⟩⟩

/-- Python `math.isclose(a, b)` with the default `rel_tol=1e-9` and
`abs_tol=0.0`, as called by `Rotation.__check_special` and for the row
norms in `Rotation.__check_ortho`:
`abs(a-b) <= max(rel_tol*max(abs(a), abs(b)), 0)`. -/
def iscloseRel (a b : ℚ) : Prop :=
  |a - b| ≤ 1 / 1000000000 * max |a| |b|

instance (a b : ℚ) : Decidable (iscloseRel a b) :=
  inferInstanceAs (Decidable (_ ≤ _))

/-- Python `math.isclose(0, d, abs_tol=1e-09)` with the default
`rel_tol=1e-9`, as called for the row orthogonality checks in
`Rotation.__check_ortho`: `abs(0-d) <= max(rel_tol*max(0, abs(d)), abs_tol)`. -/
def iscloseZero (d : ℚ) : Prop :=
  |d| ≤ max (1 / 1000000000 * |d|) (1 / 1000000000)

instance (d : ℚ) : Decidable (iscloseZero d) :=
  inferInstanceAs (Decidable (_ ≤ _))

/-- `Rotation.__init__` on three explicit matrix rows
(`sphere.py` lines 502-507 and 556-563): run `__check_special`
(determinant close to one) and then `__check_ortho` (each row close to
unit length, then the three row pairs close to orthogonal), raising
`ValueError` at the first failed check and otherwise storing the rows. -/
def mkRotation (m : M3 ℚ) : Except String (M3 ℚ) :=
  if ¬ iscloseRel 1 (det3 m) then
    .error "Rotation Matrix must have determinant one"
  else if ¬ (iscloseRel 1 (dot m.r1 m.r1) ∧ iscloseRel 1 (dot m.r2 m.r2) ∧
      iscloseRel 1 (dot m.r3 m.r3)) then
    .error "Rows of Rotation Matrix must be unit-length"
  else if ¬ iscloseZero (dot m.r1 m.r2) then
    .error "Rows of Rotation Matrix must orthogonal to each other Row1 Row2"
  else if ¬ iscloseZero (dot m.r2 m.r3) then
    .error "Rows of Rotation Matrix must orthogonal to each other Row2 Row3"
  else if ¬ iscloseZero (dot m.r3 m.r1) then
    .error "Rows of Rotation Matrix must orthogonal to each other Row3 Row1"
  else
    .ok m

/-- `Rotation.inverse` (`sphere.py` lines 653-659): builds a new
`Rotation` from the columns, which re-runs the matrix validation. -/
def rotInverse (m : M3 ℚ) : Except String (M3 ℚ) :=
  mkRotation (transposeM m)

/-- `Rotation.__mul__` (`sphere.py` lines 634-639): compose with another
rotation by calling `__div__` on the other's `inverse`; `__div__`
(lines 641-648) builds a new validated `Rotation` from the row-by-row
dot products. -/
def rotMul (a b : M3 ℚ) : Except String (M3 ℚ) :=
  match rotInverse b with
  | .error e => .error e
  | .ok bi => mkRotation (matDiv a bi)

/-- An exactly special-orthogonal matrix: its rows and its columns are
exactly orthonormal and its determinant is exactly one.  This is the
idealisation (in exact arithmetic) of the matrices held by valid
`Rotation` objects. -/
def isSO (m : M3 ℚ) : Prop :=
  matDiv m m = idM ∧ matDiv (transposeM m) (transposeM m) = idM ∧ det3 m = 1

instance (m : M3 ℚ) : Decidable (isSO m) :=
  inferInstanceAs (Decidable (_ ∧ _ ∧ _))

/-! ## Real-valued geometry: angles, sphere points, axis-angle rotations -/

open Real in
/-- Python float modulus `a % b` for `b > 0`, as used throughout
`sphere.py`: the remainder carries the sign of the divisor,
`a % b = a - b * floor(a / b)`. -/
noncomputable def pmod (a b : ℝ) : ℝ :=
  a - b * ⌊a / b⌋

/-- Python `math.atan2(y, x)`, the angle of the point `(x, y)` in
`(-pi, pi]`, modelled by the complex argument of `x + y*i`. -/
noncomputable def atan2 (y x : ℝ) : ℝ :=
  Complex.arg ⟨x, y⟩

/-- `math.degrees`: radians to degrees. -/
noncomputable def degOf (r : ℝ) : ℝ :=
  r * 180 / Real.pi

/-- `Angle.__init__` for a three component tuple with `isHMS=True`
(`sphere.py` lines 104-109): the sign of every component is dropped and
the radian value is `(|h| + |m|/60 + |s|/3600) * pi / 12`. -/
noncomputable def Angle.ofHMS (h m s : ℝ) : ℝ :=
  (|h| + |m| / 60 + |s| / 3600) * Real.pi / 12

/-- `Angle.__splitBy60` (`sphere.py` lines 152-181): split a float into
base-60 digits `(whole, minutes, seconds)` with the sign only on the
first digit.  Python `int()` truncates toward zero; its argument here is
nonnegative, so it is the floor. -/
noncomputable def splitBy60 (number : ℝ) : ℤ × ℤ × ℝ :=
  let n := |number|
  let sign : ℤ := if number < 0 then -1 else 1
  let hd : ℤ := ⌊n⌋
  let n2 := n - hd
  let m : ℤ := ⌊n2 * 60⌋
  let n3 := n2 * 60 - m
  (sign * hd, m, n3 * 60)

/-- `Angle.dms` (`sphere.py` lines 183-187): move the degree value into
`(degrees + 180) % 360 - 180` and split it into base-60 digits. -/
noncomputable def Angle.dms (radians : ℝ) : ℤ × ℤ × ℝ :=
  splitBy60 (pmod (degOf radians + 180) 360 - 180)

/-- The signed degree value represented by a `(d, m, s)` triple,
`d + m/60 + s/3600`. -/
noncomputable def dmsValue (t : ℤ × ℤ × ℝ) : ℝ :=
  (t.1 : ℝ) + (t.2.1 : ℝ) / 60 + t.2.2 / 3600

/-- The latitude normalization of `SpherePoint.__init__`
(`sphere.py` lines 345-348): wrap `(lat + pi/2) % (2*pi) - pi/2` and
reflect values that fall strictly between `pi/2` and `3*pi/2` back as
`pi - lat`. -/
noncomputable def normLat (lat : ℝ) : ℝ :=
  let l := pmod (lat + Real.pi / 2) (2 * Real.pi) - Real.pi / 2
  if Real.pi / 2 < l ∧ l < 3 * Real.pi / 2 then Real.pi - l else l

/-- The longitude normalization of `SpherePoint.__init__`
(`sphere.py` line 344): wrap to `[-pi, pi)`. -/
noncomputable def normLong (long : ℝ) : ℝ :=
  pmod (long + Real.pi) (2 * Real.pi) - Real.pi

/-- A point on the unit sphere (`SpherePoint`).  The source keeps the
latitude/longitude and the unit vector lazily and derives each from the
other on first use; here both representations are stored eagerly, which
the spec notes is an equivalent refinement of the lazy caches. -/
structure SpherePoint where
  lat : ℝ
  long : ℝ
  vec : V3 ℝ

/-- `SpherePoint.__init__` from a latitude/longitude pair in radians,
with the vector computed as in `SpherePoint.__calc_vector`
(`sphere.py` lines 413-421). -/
noncomputable def SpherePoint.ofLatLong (lat long : ℝ) : SpherePoint :=
  let la := normLat lat
  let lo := normLong long
  ⟨la, lo, ⟨Real.cos la * Real.cos lo, Real.cos la * Real.sin lo, Real.sin la⟩⟩

/-- The longitude computed from a vector in `SpherePoint.__calc_latlong`
(`sphere.py` line 406). -/
noncomputable def longFromVec (v : V3 ℝ) : ℝ :=
  pmod (atan2 v.y v.x + Real.pi) (2 * Real.pi) - Real.pi

/-- The latitude computed from a vector in `SpherePoint.__calc_latlong`
(`sphere.py` lines 408-410). -/
noncomputable def latFromVec (v : V3 ℝ) : ℝ :=
  atan2 v.z (Real.sqrt (v.x * v.x + v.y * v.y))

/-- `SpherePoint.__init__` from three vector components
(`sphere.py` lines 318-327): unitize the vector, mapping the zero vector
to `(1, 0, 0)`; latitude and longitude as in `__calc_latlong`. -/
noncomputable def SpherePoint.ofVector (v : V3 ℝ) : SpherePoint :=
  let m := Real.sqrt (v.x * v.x + v.y * v.y + v.z * v.z)
  let u : V3 ℝ := if m = 0 then ⟨1, 0, 0⟩ else ⟨v.x / m, v.y / m, v.z / m⟩
  ⟨latFromVec u, longFromVec u, u⟩

/-- `Rotation.__init__` from an axis vector and an angle
(`sphere.py` lines 536-555): raise when the axis is zero, otherwise
unitize it and build the Rodrigues rotation matrix.  Axis-angle
construction skips the orthogonality validation. -/
noncomputable def rotOfAxisAngle (a : V3 ℝ) (ang : ℝ) : Except String (M3 ℝ) :=
  let c := Real.cos ang
  let s := Real.sin ang
  let vs := 1 - c
  let m := Real.sqrt (a.x * a.x + a.y * a.y + a.z * a.z)
  if m = 0 then .error "Axis vector must be non-zero"
  else
    let x := a.x / m
    let y := a.y / m
    let z := a.z / m
    .ok ⟨⟨c + x * x * vs, x * y * vs - z * s, x * z * vs + y * s⟩,
         ⟨y * x * vs + z * s, c + y * y * vs, y * z * vs - x * s⟩,
         ⟨z * x * vs - y * s, z * y * vs + x * s, c + z * z * vs⟩⟩

/-- `Rotation.moveTo` (`sphere.py` lines 606-630): axis is the cross
product of the two unit vectors, angle is the arccosine of their dot
product scaled by `prop`. -/
noncomputable def moveTo (begin0 end0 : SpherePoint) (prop : ℝ) :
    Except String (M3 ℝ) :=
  let u := begin0.vec
  let v := end0.vec
  let c := cross u v
  let ang := Real.arccos (dot u v)
  rotOfAxisAngle c (ang * prop)

/-- `Rotation.rotate` applied to a `SpherePoint` (`sphere.py` lines
689-702): rotate the stored unit vector and rebuild a `SpherePoint`
from the resulting vector. -/
noncomputable def rotateP (m : M3 ℝ) (p : SpherePoint) : SpherePoint :=
  SpherePoint.ofVector (rotate m p.vec)

/-! ## Named objects, bodies, observers and catalogs -/

/-- Python `str.lower()` on a name, as a character list so that the
kernel can evaluate it. -/
def lowerStr (s : String) : List Char :=
  s.toList.map Char.toLower

/-- `NamedMixin.__lowered` (`utils.py` lines 196-199): the name and all
aliases in lowercase.  A list models the Python set; only membership is
ever queried. -/
def lowered (name : String) (aliases : List String) : List (List Char) :=
  (name :: aliases).map lowerStr

/-- `NamedMixin.__eq__` (`utils.py` lines 201-204): two named objects
are equal when their lowercased name/alias sets intersect. -/
def sharesName (n1 : String) (a1 : List String) (n2 : String)
    (a2 : List String) : Bool :=
  (lowered n1 a1).any (fun s => (lowered n2 a2).contains s)

/-- `NamedMixin.__contains__` (`utils.py` lines 209-217): whether `key`
matches the name or an alias, ignoring case. -/
def containsName (key : String) (name : String) (aliases : List String) :
    Bool :=
  (lowered name aliases).contains (lowerStr key)

/-- A `Stellar` object (`objects.py`): only the name, aliases and the
fixed celestial `SpherePoint` matter to the claims. -/
structure Stellar where
  name : String
  aliases : List String
  point : SpherePoint

/-- A `Body` (`objects.py`): name, aliases, its orbit-offset function
(`self.orbit(time)`), its rotator (`self.rotator(time, loc)`, producing
the reference-to-horizontal rotation matrix) and an optional parent.
Times are rational stamps; orbit and rotator are kept abstract since no
claim inspects their internals. -/
inductive Body where
  | mk (name : String) (aliases : List String) (orbit : ℚ → V3 ℝ)
      (rotator : ℚ → SpherePoint → M3 ℝ) (parent : Option Body)

/-- Primary name of a body. -/
def Body.name : Body → String
  | .mk n _ _ _ _ => n

/-- Aliases of a body. -/
def Body.aliases : Body → List String
  | .mk _ a _ _ _ => a

/-- Orbit-offset function of a body. -/
def Body.orbit : Body → (ℚ → V3 ℝ)
  | .mk _ _ o _ _ => o

/-- Rotator of a body. -/
def Body.rotator : Body → (ℚ → SpherePoint → M3 ℝ)
  | .mk _ _ _ r _ => r

/-- Parent of a body. -/
def Body.parent : Body → Option Body
  | .mk _ _ _ _ p => p

/-- The cache-free value of `Body.position` (`objects.py` lines
151-178): the primary body (no parent) sits at the origin, and any
other body is at its orbit offset plus its parent's position. -/
noncomputable def positionSpec : Body → ℚ → V3 ℝ
  | .mk _ _ _ _ none, _ => ⟨0, 0, 0⟩
  | .mk _ _ orb _ (some p), t => vadd (orb t) (positionSpec p t)

/-- One memo cell per body along the parent chain: `Body.__time` and
`Body.__position`, `none` when still unset. -/
abbrev PosCache := List (Option (ℚ × V3 ℝ))

/-- `Body.position` with its single-entry memo (`objects.py` lines
163-178): the primary body returns the origin before consulting the
cache; otherwise a cache hit on the same time returns the stored
vector, and a miss recomputes from the orbit and the parent (whose own
memo cell is the next list entry) and overwrites the cell. -/
noncomputable def positionM : Body → ℚ → PosCache → V3 ℝ × PosCache
  | .mk _ _ _ _ none, _, cs => (⟨0, 0, 0⟩, cs)
  | .mk _ _ orb _ (some p), t, cs =>
    match cs.headD none with
    | some (t0, v0) =>
      if t = t0 then (v0, cs)
      else
        let r := positionM p t cs.tail
        let v := vadd (orb t) r.1
        (v, some (t, v) :: r.2)
    | none =>
      let r := positionM p t cs.tail
      let v := vadd (orb t) r.1
      (v, some (t, v) :: r.2)

/-- A memo state is valid when every filled cell along the parent chain
holds the position the cache-free recursion gives for its stored time. -/
def validCache : Body → PosCache → Prop
  | .mk _ _ _ _ none, _ => True
  | .mk n a orb rot (some p), cs =>
    (∀ t0 v0, cs.headD none = some (t0, v0) →
      v0 = positionSpec (.mk n a orb rot (some p)) t0) ∧
    validCache p cs.tail

/-- An entry of a `Catalog` and argument of `Observer.toRef`: either a
solar-system `Body` or a fixed `Stellar` object. -/
inductive Obj where
  | body (b : Body)
  | stellar (s : Stellar)

/-- Primary name of a catalog entry. -/
def Obj.name : Obj → String
  | .body b => b.name
  | .stellar s => s.name

/-- The state of an `Observer` (`observer.py` lines 13-67): view
rotation, viewport width and height in radians, current time, location,
the body observed from, and the two visibility lists ordered by window
x and y. -/
structure Observer where
  view : M3 ℝ
  width : ℝ
  height : ℝ
  time : ℚ
  loc : SpherePoint
  body : Body
  byX : List (ℝ × Obj)
  byY : List (ℝ × Obj)

/-- `Observer.toRef` (`observer.py` lines 187-215): a `Body` equal to
the observer's own body (equality being `NamedMixin.__eq__`, i.e. a
case-insensitive name/alias overlap) is not displayable; any other body
is seen in the direction of its position minus the observer's position
at the observer's time; a `Stellar` object is seen at its fixed point.
`Body.position` is modelled by its cache-free value `positionSpec`. -/
noncomputable def toRef (obs : Observer) : Obj → Option SpherePoint
  | .body b =>
    if sharesName b.name b.aliases obs.body.name obs.body.aliases then
      none
    else
      some (SpherePoint.ofVector
        (vsub (positionSpec b obs.time) (positionSpec obs.body obs.time)))
  | .stellar s => some s.point

/-- The combined transform of `Observer.toView` (`observer.py` lines
221-232): the view rotation composed after the body's
reference-to-horizontal rotator.  The composition is taken as the
underlying matrix product; validation of composition is treated with
the `Rotation` theorems. -/
noncomputable def toViewM (obs : Observer) : M3 ℝ :=
  matDiv obs.view (transposeM (obs.body.rotator obs.time obs.loc))

/-- The ordered insertion loop of `Observer.__addVisible`
(`observer.py` lines 158-176): insert before the first element whose
key is greater than or equal to the new key. -/
noncomputable def insertByKey (key : ℝ) (obj : Obj) :
    List (ℝ × Obj) → List (ℝ × Obj)
  | [] => [(key, obj)]
  | (k, o) :: t =>
    if key ≤ k then (key, obj) :: (k, o) :: t
    else (k, o) :: insertByKey key obj t

/-- `Observer.objToWindow` (`observer.py` lines 287-316): map the
object through `toRef` and the view transform, project with
`x = 0.5 - long/width`, `y = 0.5 - lat/height`, record the object in
both visibility lists when `0 <= x < 1` and `0 <= y < 1`, and return
`(-1, -1)` untouched when the object is not displayable. -/
noncomputable def objToWindow (obs : Observer) (obj : Obj) :
    (ℝ × ℝ) × Observer :=
  match toRef obs obj with
  | none => ((-1, -1), obs)
  | some pt =>
    let p := rotateP (toViewM obs) pt
    let x := 0.5 - p.long / obs.width
    let y := 0.5 - p.lat / obs.height
    if 0 ≤ x ∧ x < 1 ∧ 0 ≤ y ∧ y < 1 then
      ((x, y), { obs with byX := insertByKey x obj obs.byX,
                          byY := insertByKey y obj obs.byY })
    else
      ((x, y), obs)

/-- A `Catalog` (`objects.py` lines 460-478): a list of bodies and a
list of stellar objects. -/
structure Catalog where
  bodies : List Body
  stellars : List Stellar

/-- `Catalog.__delitem__` (`objects.py` lines 496-515): drop every body
and every stellar object whose name/alias set contains `key`; the
returned flag records whether anything was found (the source raises
`KeyError` when it is false, leaving the catalog unchanged). -/
def delitem (cat : Catalog) (key : String) : Catalog × Bool :=
  let foundAny := cat.bodies.any (fun b => containsName key b.name b.aliases) ||
    cat.stellars.any (fun s => containsName key s.name s.aliases)
  (⟨cat.bodies.filter (fun b => ! containsName key b.name b.aliases),
    cat.stellars.filter (fun s => ! containsName key s.name s.aliases)⟩,
   foundAny)

/-- `Catalog.append` (`objects.py` lines 522-548): delete every entry
matching the new object's primary name (catching the `KeyError` when
none matched), append the object to the list for its type, and return
whether anything was overwritten. -/
def Catalog.append (cat : Catalog) (obj : Obj) : Catalog × Bool :=
  let r := delitem cat obj.name
  match obj with
  | .body b => (⟨r.1.bodies ++ [b], r.1.stellars⟩, r.2)
  | .stellar s => (⟨r.1.bodies, r.1.stellars ++ [s]⟩, r.2)

/-! ## Concrete instances used by witnesses and counterexamples -/

/-- A rational special-orthogonal matrix: rotation by 90 degrees about
the z-axis. -/
def rotZ90 : M3 ℚ :=
  ⟨⟨0, -1, 0⟩, ⟨1, 0, 0⟩, ⟨0, 0, 1⟩⟩

/-- A rational special-orthogonal matrix: rotation by 180 degrees about
the x-axis. -/
def rotX180 : M3 ℚ :=
  ⟨⟨1, 0, 0⟩, ⟨0, -1, 0⟩, ⟨0, 0, -1⟩⟩

/-- A concrete primary body for witnesses. -/
noncomputable def bodySun : Body :=
  .mk "Sun" [] (fun _ => ⟨0, 0, 0⟩) (fun _ _ => idM) none

/-- A concrete satellite of `bodySun` whose orbit offset at time `t`
is `(t, 1, 0)`. -/
noncomputable def bodyEarth : Body :=
  .mk "Earth" [] (fun t => ⟨(t : ℝ), 1, 0⟩) (fun _ _ => idM) (some bodySun)

/-- A concrete memo state for `bodyEarth`: its own cell holds the
position for time 2, its parent's cell is unset. -/
noncomputable def cacheE : PosCache :=
  [some (2, ⟨2, 1, 0⟩), none]

/-- A body that is not `bodyEarth` (different primary name, different
orbit) but whose alias list overlaps Earth's name. -/
noncomputable def bodyTerra : Body :=
  .mk "Terra" ["earth"] (fun _ => ⟨1, 0, 0⟩) (fun _ _ => idM) (some bodySun)

/-- A body with names disjoint from Earth's. -/
noncomputable def bodyMars : Body :=
  .mk "Mars" [] (fun t => ⟨0, (t : ℝ), 0⟩) (fun _ _ => idM) (some bodySun)

/-- A concrete sphere point used as an observer location. -/
noncomputable def pointX : SpherePoint :=
  ⟨0, 0, ⟨1, 0, 0⟩⟩

/-- The sphere point whose unit vector is the y-axis. -/
noncomputable def pointY : SpherePoint :=
  ⟨0, Real.pi / 2, ⟨0, 1, 0⟩⟩

/-- A concrete observer standing on `bodyEarth` at time 2. -/
noncomputable def obsE : Observer :=
  ⟨idM, 1, 1, 2, pointX, bodyEarth, [], []⟩

/-- A stellar object named Alpha with no aliases. -/
def stAlpha : Stellar :=
  ⟨"Alpha", [], ⟨0, 0, ⟨1, 0, 0⟩⟩⟩

/-- A stellar object named Beta carrying Alpha as an alias. -/
def stBeta : Stellar :=
  ⟨"Beta", ["Alpha"], ⟨0, 0, ⟨0, 1, 0⟩⟩⟩

/-- A catalog holding only the Alpha entry. -/
def catAlpha : Catalog :=
  ⟨[], [stAlpha]⟩

/-! ## Theorems for the claims -/

section Claims

/-- `iscloseRel 1 a` says the value differs from one by at most one part
in a billion, relative to the larger of the two. -/
lemma iscloseRel_one_iff (a : ℚ) :
    iscloseRel 1 a ↔ |a - 1| ≤ 1 / 1000000000 * max 1 |a| := by
  unfold iscloseRel
  rw [abs_sub_comm]
  norm_num

/-- The zero check of `__check_ortho` collapses to an absolute
tolerance of `1e-9`. -/
lemma iscloseZero_iff (d : ℚ) : iscloseZero d ↔ |d| ≤ 1 / 1000000000 := by
  unfold iscloseZero
  constructor
  · intro h
    rcases le_max_iff.mp h with h1 | h1
    · have h0 : |d| = 0 := by nlinarith [abs_nonneg d]
      rw [h0]
      norm_num
    · exact h1
  · intro h
    exact le_max_of_le_right h

/-- C2: constructing a `Rotation` directly from matrix rows succeeds
exactly when the determinant is within a relative `1e-9` of one, every
row norm is within a relative `1e-9` of unit, and the three row pairs
are orthogonal within `1e-9` absolute tolerance; a matrix passing all
three checks is accepted unchanged. -/
theorem mkRotation_ok_iff (m : M3 ℚ) :
    mkRotation m = .ok m ↔
      (|det3 m - 1| ≤ 1 / 1000000000 * max 1 |det3 m| ∧
       |dot m.r1 m.r1 - 1| ≤ 1 / 1000000000 * max 1 |dot m.r1 m.r1| ∧
       |dot m.r2 m.r2 - 1| ≤ 1 / 1000000000 * max 1 |dot m.r2 m.r2| ∧
       |dot m.r3 m.r3 - 1| ≤ 1 / 1000000000 * max 1 |dot m.r3 m.r3| ∧
       |dot m.r1 m.r2| ≤ 1 / 1000000000 ∧
       |dot m.r2 m.r3| ≤ 1 / 1000000000 ∧
       |dot m.r3 m.r1| ≤ 1 / 1000000000) := by
  have e0 := iscloseRel_one_iff (det3 m)
  have e1 := iscloseRel_one_iff (dot m.r1 m.r1)
  have e2 := iscloseRel_one_iff (dot m.r2 m.r2)
  have e3 := iscloseRel_one_iff (dot m.r3 m.r3)
  have z1 := iscloseZero_iff (dot m.r1 m.r2)
  have z2 := iscloseZero_iff (dot m.r2 m.r3)
  have z3 := iscloseZero_iff (dot m.r3 m.r1)
  unfold mkRotation
  split_ifs with h1 h2 h3 h4 h5 <;> simp_all

/-- Unpack the nine row Gram conditions from `matDiv m m = idM`. -/
lemma gram_rows {m : M3 ℚ} (h : matDiv m m = idM) :
    dot m.r1 m.r1 = 1 ∧ dot m.r1 m.r2 = 0 ∧ dot m.r1 m.r3 = 0 ∧
    dot m.r2 m.r1 = 0 ∧ dot m.r2 m.r2 = 1 ∧ dot m.r2 m.r3 = 0 ∧
    dot m.r3 m.r1 = 0 ∧ dot m.r3 m.r2 = 0 ∧ dot m.r3 m.r3 = 1 := by
  unfold matDiv idM at h
  simp only [M3.mk.injEq, V3.mk.injEq] at h
  tauto

/-- A matrix satisfying the validated conditions exactly passes
`mkRotation` unchanged. -/
lemma mkRotation_ok_of_exact {m : M3 ℚ} (hd : det3 m = 1)
    (h11 : dot m.r1 m.r1 = 1) (h22 : dot m.r2 m.r2 = 1)
    (h33 : dot m.r3 m.r3 = 1) (h12 : dot m.r1 m.r2 = 0)
    (h23 : dot m.r2 m.r3 = 0) (h31 : dot m.r3 m.r1 = 0) :
    mkRotation m = .ok m := by
  unfold mkRotation
  rw [hd, h11, h22, h33, h12, h23, h31]
  norm_num [iscloseRel, iscloseZero]

/-- Transposing twice is the identity. -/
lemma transposeM_transposeM (m : M3 ℚ) : transposeM (transposeM m) = m := rfl

/-- The determinant is invariant under transposition. -/
lemma det3_transposeM (m : M3 ℚ) : det3 (transposeM m) = det3 m := by
  unfold det3 transposeM
  ring

/-- The transpose of an exactly special-orthogonal matrix is exactly
special orthogonal. -/
lemma isSO_transposeM {m : M3 ℚ} (h : isSO m) : isSO (transposeM m) := by
  obtain ⟨h1, h2, h3⟩ := h
  refine ⟨h2, ?_, ?_⟩
  · rw [transposeM_transposeM]
    exact h1
  · rw [det3_transposeM]
    exact h3

/-- The product of two exactly special-orthogonal matrices passes the
`Rotation` validation. -/
lemma mkRotation_ok_matDiv {a b : M3 ℚ} (ha : isSO a) (hb : isSO b) :
    mkRotation (matDiv a (transposeM b)) = .ok (matDiv a (transposeM b)) := by
  obtain ⟨ha1, -, had⟩ := ha
  obtain ⟨hb1, -, hbd⟩ := hb
  obtain ⟨a11, a12, a13, a21, a22, a23, a31, a32, a33⟩ := gram_rows ha1
  obtain ⟨b11, b12, b13, b21, b22, b23, b31, b32, b33⟩ := gram_rows hb1
  simp only [dot] at a11 a12 a23 a31 a22 a33 b11 b12 b13 b22 b23 b33
  apply mkRotation_ok_of_exact
  · have hmul : det3 (matDiv a (transposeM b)) = det3 a * det3 b := by
      simp only [det3, matDiv, transposeM, dot]
      ring
    rw [hmul, had, hbd]
    norm_num
  · simp only [matDiv, transposeM, dot]
    linear_combination a.r1.x ^ 2 * b11 + a.r1.y ^ 2 * b22 + a.r1.z ^ 2 * b33 +
      2 * a.r1.x * a.r1.y * b12 + 2 * a.r1.x * a.r1.z * b13 +
      2 * a.r1.y * a.r1.z * b23 + a11
  · simp only [matDiv, transposeM, dot]
    linear_combination a.r2.x ^ 2 * b11 + a.r2.y ^ 2 * b22 + a.r2.z ^ 2 * b33 +
      2 * a.r2.x * a.r2.y * b12 + 2 * a.r2.x * a.r2.z * b13 +
      2 * a.r2.y * a.r2.z * b23 + a22
  · simp only [matDiv, transposeM, dot]
    linear_combination a.r3.x ^ 2 * b11 + a.r3.y ^ 2 * b22 + a.r3.z ^ 2 * b33 +
      2 * a.r3.x * a.r3.y * b12 + 2 * a.r3.x * a.r3.z * b13 +
      2 * a.r3.y * a.r3.z * b23 + a33
  · simp only [matDiv, transposeM, dot]
    linear_combination a.r1.x * a.r2.x * b11 + a.r1.y * a.r2.y * b22 +
      a.r1.z * a.r2.z * b33 + (a.r1.x * a.r2.y + a.r1.y * a.r2.x) * b12 +
      (a.r1.x * a.r2.z + a.r1.z * a.r2.x) * b13 +
      (a.r1.y * a.r2.z + a.r1.z * a.r2.y) * b23 + a12
  · simp only [matDiv, transposeM, dot]
    linear_combination a.r2.x * a.r3.x * b11 + a.r2.y * a.r3.y * b22 +
      a.r2.z * a.r3.z * b33 + (a.r2.x * a.r3.y + a.r2.y * a.r3.x) * b12 +
      (a.r2.x * a.r3.z + a.r2.z * a.r3.x) * b13 +
      (a.r2.y * a.r3.z + a.r2.z * a.r3.y) * b23 + a23
  · simp only [matDiv, transposeM, dot]
    linear_combination a.r3.x * a.r1.x * b11 + a.r3.y * a.r1.y * b22 +
      a.r3.z * a.r1.z * b33 + (a.r3.x * a.r1.y + a.r3.y * a.r1.x) * b12 +
      (a.r3.x * a.r1.z + a.r3.z * a.r1.x) * b13 +
      (a.r3.y * a.r1.z + a.r3.z * a.r1.y) * b23 + a31

/-- C1: for special-orthogonal `A` and `B`, the composition `A * B`
validates successfully with underlying matrix `A·B` (the row-by-row dot
products against the inverse's rows), and applying the composite to any
vector rotates by `B` first and then by `A`. -/
theorem rotation_mul_comp (A B : M3 ℚ) (v : V3 ℚ) (hA : isSO A) (hB : isSO B) :
    rotMul A B = .ok (matDiv A (transposeM B)) ∧
    rotate (matDiv A (transposeM B)) v = rotate A (rotate B v) := by
  constructor
  · have hinv : mkRotation (transposeM B) = .ok (transposeM B) := by
      obtain ⟨hb1, hb2, hb3⟩ := isSO_transposeM hB
      obtain ⟨t11, t12, t13, t21, t22, t23, t31, t32, t33⟩ := gram_rows hb1
      exact mkRotation_ok_of_exact hb3 t11 t22 t33 t12 t23 t31
    unfold rotMul rotInverse
    rw [hinv]
    exact mkRotation_ok_matDiv hA hB
  · simp only [rotate, matDiv, transposeM, dot, V3.mk.injEq]
    refine ⟨by ring, by ring, by ring⟩

/-- C1 witness: two concrete rational rotations (90 degrees about z,
180 degrees about x) composed and applied to the vector `(1, 2, 3)`. -/
theorem rotation_mul_comp_witness :
    isSO rotZ90 ∧ isSO rotX180 ∧
    (rotMul rotZ90 rotX180 = .ok (matDiv rotZ90 (transposeM rotX180)) ∧
     rotate (matDiv rotZ90 (transposeM rotX180)) ⟨1, 2, 3⟩ =
       rotate rotZ90 (rotate rotX180 ⟨1, 2, 3⟩)) :=
  have hz : isSO rotZ90 := by
    norm_num [isSO, matDiv, transposeM, det3, dot, idM, rotZ90,
      V3.mk.injEq, M3.mk.injEq]
  have hx : isSO rotX180 := by
    norm_num [isSO, matDiv, transposeM, det3, dot, idM, rotX180,
      V3.mk.injEq, M3.mk.injEq]
  ⟨hz, hx, rotation_mul_comp rotZ90 rotX180 ⟨1, 2, 3⟩ hz hx⟩

/-- C10: an `Angle` built from an `(h, m, s)` triple with `isHMS=True`
stores `(|h| + |m|/60 + |s|/3600) * pi/12` radians, so negative
components are silently treated as magnitudes (the constructor accepts
them rather than rejecting them). -/
theorem angle_ofHMS_unsigned (h m s : ℝ) :
    Angle.ofHMS h m s = (|h| + |m| / 60 + |s| / 3600) * Real.pi / 12 ∧
    Angle.ofHMS h m s = Angle.ofHMS |h| |m| |s| := by
  refine ⟨rfl, ?_⟩
  unfold Angle.ofHMS
  rw [abs_abs, abs_abs, abs_abs]

/-- The memoized `Body.position` agrees with its cache-free value on
every valid memo state, and leaves the memo state valid. -/
lemma positionM_correct :
    ∀ (b : Body) (t : ℚ) (cs : PosCache), validCache b cs →
      (positionM b t cs).1 = positionSpec b t ∧
      validCache b (positionM b t cs).2
  | .mk n a orb rot none, t, cs, h => ⟨rfl, trivial⟩
  | .mk n a orb rot (some p), t, cs, h => by
    obtain ⟨hhit, hrest⟩ := h
    have IH := positionM_correct p t cs.tail hrest
    have hspec : positionSpec (Body.mk n a orb rot (some p)) t
        = vadd (orb t) (positionSpec p t) := rfl
    rcases hc : cs.headD none with - | ⟨t0, v0⟩
    · simp only [positionM, hc]
      refine ⟨by rw [hspec, IH.1], ?_, IH.2⟩
      intro t1 v1 heq
      simp only [List.headD_cons, Option.some.injEq, Prod.mk.injEq] at heq
      obtain ⟨ht1, hv1⟩ := heq
      subst ht1
      rw [← hv1, hspec, IH.1]
    · simp only [positionM, hc]
      by_cases ht : t = t0
      · simp only [if_pos ht]
        subst ht
        exact ⟨hhit t v0 hc, hhit, hrest⟩
      · simp only [if_neg ht]
        refine ⟨by rw [hspec, IH.1], ?_, IH.2⟩
        intro t1 v1 heq
        simp only [List.headD_cons, Option.some.injEq, Prod.mk.injEq] at heq
        obtain ⟨ht1, hv1⟩ := heq
        subst ht1
        rw [← hv1, hspec, IH.1]

/-- C4: a `Body` with no parent is at the origin at every time; a
`Body` with a parent is at its orbit offset at `t` added componentwise
to its parent's position at `t`; and the single-entry memo of
`Body.position` never changes the returned value: on any valid memo
state the memoized position equals the cache-free one, and the memo
state stays valid. -/
theorem body_position_recursion_and_memo :
    (∀ n a orb rot (t : ℚ),
      positionSpec (Body.mk n a orb rot none) t = ⟨0, 0, 0⟩) ∧
    (∀ n a orb rot p (t : ℚ),
      positionSpec (Body.mk n a orb rot (some p)) t =
        vadd (orb t) (positionSpec p t)) ∧
    (∀ b (t : ℚ) cs, validCache b cs →
      (positionM b t cs).1 = positionSpec b t ∧
      validCache b (positionM b t cs).2) :=
  ⟨fun _ _ _ _ _ => rfl, fun _ _ _ _ _ _ => rfl,
   fun b t cs h => positionM_correct b t cs h⟩

/-- C4 witness: the Sun/Earth pair with a filled memo cell for time 2,
queried at time 3. -/
theorem body_position_memo_witness :
    validCache bodyEarth cacheE ∧
    ((positionM bodyEarth 3 cacheE).1 = positionSpec bodyEarth 3 ∧
     validCache bodyEarth (positionM bodyEarth 3 cacheE).2) :=
  have hv : validCache bodyEarth cacheE := by
    refine ⟨?_, trivial⟩
    intro t0 v0 heq
    simp only [cacheE, List.headD_cons, Option.some.injEq, Prod.mk.injEq] at heq
    obtain ⟨ht0, hv0⟩ := heq
    subst ht0
    rw [← hv0]
    show (⟨2, 1, 0⟩ : V3 ℝ) = vadd ⟨(2 : ℝ), 1, 0⟩ ⟨0, 0, 0⟩
    simp [vadd]
  ⟨hv, body_position_recursion_and_memo.2.2 bodyEarth 3 cacheE hv⟩

/-- C3 counterexample: `bodyTerra` is not the body the observer stands
on (its primary name and its orbit differ from `bodyEarth`'s), yet
`toRef` reports it as not displayable, because the `NamedMixin`
equality only compares name/alias sets and Terra lists `earth` among
its aliases. -/
theorem toRef_counterexample :
    toRef obsE (.body bodyTerra) = none ∧
    bodyTerra.name ≠ obsE.body.name := by
  constructor
  · have hb : sharesName bodyTerra.name bodyTerra.aliases
        obsE.body.name obsE.body.aliases = true := by decide
    simp [toRef, hb]
  · decide

/-- C3 (amended): `Observer.toRef` on a `Body` returns the
not-displayable `none` exactly when the body's name/alias set
intersects the observer's body's set case-insensitively (the source's
`NamedMixin.__eq__` notion of being the same body); any other body maps
to the `SpherePoint` in the direction of its position minus the
observer's position at the observer's time; a `Stellar` object maps to
its fixed point for every observer state, hence independently of time
and location. -/
theorem toRef_cases (obs : Observer) (b : Body) (s : Stellar) :
    (sharesName b.name b.aliases obs.body.name obs.body.aliases = true →
      toRef obs (.body b) = none) ∧
    (sharesName b.name b.aliases obs.body.name obs.body.aliases = false →
      toRef obs (.body b) =
        some (SpherePoint.ofVector
          (vsub (positionSpec b obs.time) (positionSpec obs.body obs.time)))) ∧
    toRef obs (.stellar s) = some s.point := by
  refine ⟨fun h => ?_, fun h => ?_, rfl⟩
  · simp [toRef, h]
  · simp [toRef, h]

/-- C3 witness: the concrete observer on Earth, with the alias-sharing
body Terra suppressed, the name-disjoint body Mars displayed at its
relative direction, and the stellar object Alpha at its fixed point. -/
theorem toRef_cases_witness :
    (sharesName bodyTerra.name bodyTerra.aliases
        obsE.body.name obsE.body.aliases = true ∧
      toRef obsE (.body bodyTerra) = none) ∧
    (sharesName bodyMars.name bodyMars.aliases
        obsE.body.name obsE.body.aliases = false ∧
      toRef obsE (.body bodyMars) =
        some (SpherePoint.ofVector
          (vsub (positionSpec bodyMars obsE.time)
            (positionSpec obsE.body obsE.time)))) ∧
    toRef obsE (.stellar stAlpha) = some stAlpha.point :=
  ⟨⟨by decide, (toRef_cases obsE bodyTerra stAlpha).1 (by decide)⟩,
   ⟨by decide, (toRef_cases obsE bodyMars stAlpha).2.1 (by decide)⟩,
   (toRef_cases obsE bodyMars stAlpha).2.2⟩

/-- C5: when `toRef` yields a displayable point, `objToWindow` returns
`x = 0.5 - longitude/width` and `y = 0.5 - latitude/height` of the
point rotated by the combined view transform, and it records the object
into the x-ordered and y-ordered visibility lists exactly when both `x`
and `y` lie in `[0, 1)`. -/
theorem objToWindow_formula (obs : Observer) (obj : Obj) (pt : SpherePoint)
    (h : toRef obs obj = some pt) :
    (objToWindow obs obj).1 =
      (0.5 - (rotateP (toViewM obs) pt).long / obs.width,
       0.5 - (rotateP (toViewM obs) pt).lat / obs.height) ∧
    (objToWindow obs obj).2.byX =
      (if 0 ≤ 0.5 - (rotateP (toViewM obs) pt).long / obs.width ∧
          0.5 - (rotateP (toViewM obs) pt).long / obs.width < 1 ∧
          0 ≤ 0.5 - (rotateP (toViewM obs) pt).lat / obs.height ∧
          0.5 - (rotateP (toViewM obs) pt).lat / obs.height < 1 then
        insertByKey (0.5 - (rotateP (toViewM obs) pt).long / obs.width)
          obj obs.byX
      else obs.byX) ∧
    (objToWindow obs obj).2.byY =
      (if 0 ≤ 0.5 - (rotateP (toViewM obs) pt).long / obs.width ∧
          0.5 - (rotateP (toViewM obs) pt).long / obs.width < 1 ∧
          0 ≤ 0.5 - (rotateP (toViewM obs) pt).lat / obs.height ∧
          0.5 - (rotateP (toViewM obs) pt).lat / obs.height < 1 then
        insertByKey (0.5 - (rotateP (toViewM obs) pt).lat / obs.height)
          obj obs.byY
      else obs.byY) := by
  simp only [objToWindow, h]
  split_ifs with hc <;> exact ⟨rfl, rfl, rfl⟩

/-- C5 witness: the concrete Earth observer viewing the stellar object
Alpha, whose `toRef` is its fixed point. -/
theorem objToWindow_formula_witness :
    (objToWindow obsE (.stellar stAlpha)).1 =
      (0.5 - (rotateP (toViewM obsE) stAlpha.point).long / obsE.width,
       0.5 - (rotateP (toViewM obsE) stAlpha.point).lat / obsE.height) ∧
    (objToWindow obsE (.stellar stAlpha)).2.byX =
      (if 0 ≤ 0.5 - (rotateP (toViewM obsE) stAlpha.point).long / obsE.width ∧
          0.5 - (rotateP (toViewM obsE) stAlpha.point).long / obsE.width < 1 ∧
          0 ≤ 0.5 - (rotateP (toViewM obsE) stAlpha.point).lat / obsE.height ∧
          0.5 - (rotateP (toViewM obsE) stAlpha.point).lat / obsE.height < 1 then
        insertByKey
          (0.5 - (rotateP (toViewM obsE) stAlpha.point).long / obsE.width)
          (.stellar stAlpha) obsE.byX
      else obsE.byX) ∧
    (objToWindow obsE (.stellar stAlpha)).2.byY =
      (if 0 ≤ 0.5 - (rotateP (toViewM obsE) stAlpha.point).long / obsE.width ∧
          0.5 - (rotateP (toViewM obsE) stAlpha.point).long / obsE.width < 1 ∧
          0 ≤ 0.5 - (rotateP (toViewM obsE) stAlpha.point).lat / obsE.height ∧
          0.5 - (rotateP (toViewM obsE) stAlpha.point).lat / obsE.height < 1 then
        insertByKey
          (0.5 - (rotateP (toViewM obsE) stAlpha.point).lat / obsE.height)
          (.stellar stAlpha) obsE.byY
      else obsE.byY) :=
  objToWindow_formula obsE (.stellar stAlpha) stAlpha.point rfl

/-- C6 counterexample: appending Beta (which lists Alpha as an alias)
to a catalog holding Alpha: the two entries' name/alias sets intersect,
yet `append` removes nothing and returns `False`, leaving both entries
in the catalog. -/
theorem catalog_append_alias_counterexample :
    sharesName stBeta.name stBeta.aliases stAlpha.name stAlpha.aliases = true ∧
    (Catalog.append catAlpha (.stellar stBeta)).2 = false ∧
    (Catalog.append catAlpha (.stellar stBeta)).1.stellars.length = 2 := by
  refine ⟨?_, ?_, ?_⟩ <;> decide

/-- C6 (amended): `Catalog.append obj` removes exactly the entries
whose name/alias set contains `obj`'s primary name (case-insensitively,
in both lists), appends `obj` to the list for its type, and returns
`True` exactly when some entry matched that primary name. -/
theorem catalog_append_primary_name (cat : Catalog) (obj : Obj) :
    (Catalog.append cat obj).2 =
      (cat.bodies.any (fun b => containsName obj.name b.name b.aliases) ||
       cat.stellars.any (fun s => containsName obj.name s.name s.aliases)) ∧
    (Catalog.append cat obj).1.bodies =
      cat.bodies.filter (fun b => ! containsName obj.name b.name b.aliases) ++
        (match obj with | .body b => [b] | .stellar _ => []) ∧
    (Catalog.append cat obj).1.stellars =
      cat.stellars.filter (fun s => ! containsName obj.name s.name s.aliases) ++
        (match obj with | .body _ => [] | .stellar s => [s]) := by
  cases obj <;> simp [Catalog.append, delitem]

/-- The Python float modulus with a positive divisor is nonnegative. -/
lemma pmod_nonneg (a : ℝ) {b : ℝ} (hb : 0 < b) : 0 ≤ pmod a b := by
  have h1 : (⌊a / b⌋ : ℝ) ≤ a / b := Int.floor_le _
  have h4 : 0 ≤ b * (a / b - ⌊a / b⌋) := mul_nonneg hb.le (by linarith)
  have h3 : b * (a / b) = a := by
    field_simp
  unfold pmod
  nlinarith

/-- The Python float modulus with a positive divisor is below the
divisor. -/
lemma pmod_lt (a : ℝ) {b : ℝ} (hb : 0 < b) : pmod a b < b := by
  have h1 : a / b < ⌊a / b⌋ + 1 := Int.lt_floor_add_one _
  have h3 : b * (a / b) = a := by
    field_simp
  have h4 : 0 < b * (⌊a / b⌋ + 1 - a / b) := mul_pos hb (by linarith)
  unfold pmod
  nlinarith

/-- C8 counterexample: an input latitude of exactly `pi/2` (the north
pole) is stored unchanged as `pi/2`, which is outside the claimed
half-open interval `[-pi/2, pi/2)`. -/
theorem spherePoint_lat_pole_counterexample :
    (SpherePoint.ofLatLong (Real.pi / 2) 0).lat = Real.pi / 2 ∧
    ¬ (SpherePoint.ofLatLong (Real.pi / 2) 0).lat < Real.pi / 2 := by
  have hpi := Real.pi_pos
  have hflr : (⌊(1 : ℝ) / 2⌋ : ℤ) = 0 := by
    rw [Int.floor_eq_zero_iff]
    constructor <;> norm_num
  have hpm : pmod Real.pi (2 * Real.pi) = Real.pi := by
    unfold pmod
    have hq : Real.pi / (2 * Real.pi) = 1 / 2 := by
      rw [eq_div_iff (by norm_num : (2 : ℝ) ≠ 0)]
      field_simp
      ring
    rw [hq, hflr]
    norm_num
  have hn : normLat (Real.pi / 2) = Real.pi / 2 := by
    unfold normLat
    have hsum : Real.pi / 2 + Real.pi / 2 = Real.pi := by ring
    rw [hsum, hpm]
    rw [if_neg]
    · ring
    · intro hcontra
      have := hcontra.1
      linarith
  have hlat : (SpherePoint.ofLatLong (Real.pi / 2) 0).lat
      = normLat (Real.pi / 2) := rfl
  rw [hlat, hn]
  exact ⟨rfl, by linarith⟩

/-- C8 (amended): the stored latitude of a `SpherePoint` built from a
latitude/longitude pair always lies in the closed interval
`[-pi/2, pi/2]` (the exact poles are stored as is, so the right end is
attained), and inputs that wrap past a pole are mirrored back:
100 degrees, i.e. `5*pi/9`, is stored as 80 degrees, i.e. `4*pi/9`. -/
theorem spherePoint_lat_range (lat long : ℝ) :
    (-(Real.pi / 2) ≤ (SpherePoint.ofLatLong lat long).lat ∧
     (SpherePoint.ofLatLong lat long).lat ≤ Real.pi / 2) ∧
    (SpherePoint.ofLatLong (5 * Real.pi / 9) 0).lat = 4 * Real.pi / 9 := by
  have hpi := Real.pi_pos
  constructor
  · have hb : (0 : ℝ) < 2 * Real.pi := by linarith
    have h1 : 0 ≤ pmod (lat + Real.pi / 2) (2 * Real.pi) := pmod_nonneg _ hb
    have h2 : pmod (lat + Real.pi / 2) (2 * Real.pi) < 2 * Real.pi := pmod_lt _ hb
    have hlat : (SpherePoint.ofLatLong lat long).lat = normLat lat := rfl
    rw [hlat]
    simp only [normLat]
    split_ifs with hc
    · constructor <;> [linarith [hc.2]; linarith [hc.1]]
    · rw [not_and_or] at hc
      rcases hc with hc | hc
      · push_neg at hc
        constructor <;> linarith
      · exfalso
        push_neg at hc
        linarith
  · have hflr : (⌊(19 : ℝ) / 36⌋ : ℤ) = 0 := by
      rw [Int.floor_eq_zero_iff]
      constructor <;> norm_num
    have hpm : pmod (19 * Real.pi / 18) (2 * Real.pi) = 19 * Real.pi / 18 := by
      unfold pmod
      have hq : 19 * Real.pi / 18 / (2 * Real.pi) = 19 / 36 := by
        rw [div_eq_iff (by linarith : (2 : ℝ) * Real.pi ≠ 0)]
        field_simp
        ring
      rw [hq, hflr]
      norm_num
    have hlat : (SpherePoint.ofLatLong (5 * Real.pi / 9) 0).lat
        = normLat (5 * Real.pi / 9) := rfl
    rw [hlat]
    unfold normLat
    have hsum : 5 * Real.pi / 9 + Real.pi / 2 = 19 * Real.pi / 18 := by ring
    rw [hsum, hpm]
    rw [if_pos]
    · ring
    · constructor <;> nlinarith

/-- The base-60 split of a degree value in `[-180, 180)` has
nonnegative minutes and seconds and a signed value in `[-180, 180)`. -/
lemma splitBy60_value {x : ℝ} (h1 : -180 ≤ x) (h2 : x < 180) :
    (-180 ≤ dmsValue (splitBy60 x) ∧ dmsValue (splitBy60 x) < 180) ∧
    0 ≤ (splitBy60 x).2.1 ∧ 0 ≤ (splitBy60 x).2.2 := by
  unfold splitBy60 dmsValue
  simp only
  have hf0 : 0 ≤ |x| - (⌊|x|⌋ : ℝ) := by
    have := Int.floor_le |x|
    linarith
  have hf1 : |x| - (⌊|x|⌋ : ℝ) < 1 := by
    have := Int.lt_floor_add_one |x|
    linarith
  have hm0 : (0 : ℤ) ≤ ⌊(|x| - (⌊|x|⌋ : ℝ)) * 60⌋ :=
    Int.floor_nonneg.mpr (by positivity)
  have hmle : ((⌊(|x| - (⌊|x|⌋ : ℝ)) * 60⌋ : ℤ) : ℝ) ≤ (|x| - (⌊|x|⌋ : ℝ)) * 60 :=
    Int.floor_le _
  have habs180 : |x| ≤ 180 := by
    rw [abs_le]
    constructor <;> linarith
  have hfl180 : (⌊|x|⌋ : ℝ) ≤ 180 := le_trans (Int.floor_le _) habs180
  have hfl0 : (0 : ℝ) ≤ (⌊|x|⌋ : ℝ) := by
    exact_mod_cast Int.floor_nonneg.mpr (abs_nonneg x)
  have hsplit : ((⌊(|x| - (⌊|x|⌋ : ℝ)) * 60⌋ : ℤ) : ℝ) / 60 +
      ((|x| - (⌊|x|⌋ : ℝ)) * 60 - (⌊(|x| - (⌊|x|⌋ : ℝ)) * 60⌋ : ℤ)) * 60 / 3600
      = |x| - (⌊|x|⌋ : ℝ) := by
    field_simp
    unfold Int.fract
    ring
  refine ⟨?_, by exact_mod_cast hm0, by nlinarith⟩
  by_cases hx : x < 0
  · simp only [if_pos hx]
    push_cast
    rw [neg_one_mul, add_assoc, hsplit]
    have hxabs : |x| = -x := abs_of_neg hx
    constructor <;> linarith
  · simp only [if_neg hx]
    push_cast
    rw [one_mul, add_assoc, hsplit]
    have hxabs : |x| = x := abs_of_nonneg (not_lt.mp hx)
    constructor <;> linarith

/-- C9 counterexample: the angle of `pi` radians: its degree value 180
wraps to exactly `-180`, so `dms` returns `(-180, 0, 0)` whose signed
value `-180` is outside the claimed half-open interval `(-180, 180]`. -/
theorem angle_dms_pi_counterexample :
    Angle.dms Real.pi = (-180, 0, 0) ∧
    ¬ (-180 < dmsValue (Angle.dms Real.pi)) := by
  have hdeg : degOf Real.pi = 180 := by
    unfold degOf
    field_simp
  have hpm : pmod (degOf Real.pi + 180) 360 = 0 := by
    unfold pmod
    rw [hdeg]
    have h360 : (180 + 180 : ℝ) / 360 = 1 := by norm_num
    rw [h360]
    norm_num
  have harg : pmod (degOf Real.pi + 180) 360 - 180 = -180 := by
    rw [hpm]
    norm_num
  constructor
  · show splitBy60 (pmod (degOf Real.pi + 180) 360 - 180) = (-180, 0, 0)
    rw [harg]
    unfold splitBy60
    norm_num
  · show ¬ (-180 < dmsValue (splitBy60 (pmod (degOf Real.pi + 180) 360 - 180)))
    rw [harg]
    unfold splitBy60 dmsValue
    norm_num

/-- C9 (amended): every `dms` triple carries its sign on the degrees
component only (minutes and seconds are nonnegative), and its signed
value `d + m/60 + s/3600` lies in the half-open interval `[-180, 180)`
of degrees, the left end being attained at `pi` radians. -/
theorem angle_dms_range (a : ℝ) :
    (-180 ≤ dmsValue (Angle.dms a) ∧ dmsValue (Angle.dms a) < 180) ∧
    0 ≤ (Angle.dms a).2.1 ∧ 0 ≤ (Angle.dms a).2.2 := by
  have hb : (0 : ℝ) < 360 := by norm_num
  have h1 := pmod_nonneg (degOf a + 180) hb
  have h2 := pmod_lt (degOf a + 180) hb
  exact splitBy60_value (by linarith) (by linarith)

/-- A nonzero cross product has positive squared norm. -/
lemma cross_sq_pos {u v : V3 ℝ} (hcr : cross u v ≠ (⟨0, 0, 0⟩ : V3 ℝ)) :
    0 < (cross u v).x * (cross u v).x + (cross u v).y * (cross u v).y +
      (cross u v).z * (cross u v).z := by
  have h1 := mul_self_nonneg (cross u v).x
  have h2 := mul_self_nonneg (cross u v).y
  have h3 := mul_self_nonneg (cross u v).z
  rcases lt_or_eq_of_le (by linarith :
      (0 : ℝ) ≤ (cross u v).x * (cross u v).x + (cross u v).y * (cross u v).y +
        (cross u v).z * (cross u v).z) with hlt | heq
  · exact hlt
  · exfalso
    apply hcr
    have hx : (cross u v).x = 0 := by nlinarith
    have hy : (cross u v).y = 0 := by nlinarith
    have hz : (cross u v).z = 0 := by nlinarith
    ext
    · simpa using hx
    · simpa using hy
    · simpa using hz

/-- `moveTo` with proportion one: the Rodrigues matrix built on the
cross-product axis with angle the arccosine of the dot product carries
the first unit vector exactly to the second, provided the two are
neither equal nor antipodal. -/
lemma rotOfAxisAngle_cross_one (u v : V3 ℝ) (hu : dot u u = 1)
    (hv : dot v v = 1) (hcr : cross u v ≠ (⟨0, 0, 0⟩ : V3 ℝ)) :
    ∃ R, rotOfAxisAngle (cross u v) (Real.arccos (dot u v) * 1) = .ok R ∧
      rotate R u = v := by
  obtain ⟨ux, uy, uz⟩ := u
  obtain ⟨vx, vy, vz⟩ := v
  simp only [dot, cross] at hu hv hcr ⊢
  have hQpos : 0 < (uy * vz - uz * vy) * (uy * vz - uz * vy) +
      (uz * vx - ux * vz) * (uz * vx - ux * vz) +
      (ux * vy - uy * vx) * (ux * vy - uy * vx) := by
    have := cross_sq_pos (u := ⟨ux, uy, uz⟩) (v := ⟨vx, vy, vz⟩) hcr
    simpa [cross] using this
  have hQ0 : (0 : ℝ) ≤ (uy * vz - uz * vy) * (uy * vz - uz * vy) +
      (uz * vx - ux * vz) * (uz * vx - ux * vz) +
      (ux * vy - uy * vx) * (ux * vy - uy * vx) := le_of_lt hQpos
  have hQeq : (uy * vz - uz * vy) * (uy * vz - uz * vy) +
      (uz * vx - ux * vz) * (uz * vx - ux * vz) +
      (ux * vy - uy * vx) * (ux * vy - uy * vx)
      = 1 - (ux * vx + uy * vy + uz * vz) ^ 2 := by
    have hgen : (uy * vz - uz * vy) * (uy * vz - uz * vy) +
        (uz * vx - ux * vz) * (uz * vx - ux * vz) +
        (ux * vy - uy * vx) * (ux * vy - uy * vx)
        = (ux * ux + uy * uy + uz * uz) * (vx * vx + vy * vy + vz * vz) -
          (ux * vx + uy * vy + uz * vz) ^ 2 := by
      ring
    rw [hgen, hu, hv, one_mul]
  have hd1 : ux * vx + uy * vy + uz * vz ≤ 1 := by nlinarith
  have hdm1 : -1 ≤ ux * vx + uy * vy + uz * vz := by nlinarith
  have hcos : Real.cos (Real.arccos (ux * vx + uy * vy + uz * vz) * 1)
      = ux * vx + uy * vy + uz * vz := by
    rw [mul_one]
    exact Real.cos_arccos hdm1 hd1
  have hsin : Real.sin (Real.arccos (ux * vx + uy * vy + uz * vz) * 1)
      = Real.sqrt ((uy * vz - uz * vy) * (uy * vz - uz * vy) +
          (uz * vx - ux * vz) * (uz * vx - ux * vz) +
          (ux * vy - uy * vx) * (ux * vy - uy * vx)) := by
    rw [mul_one, Real.sin_arccos, ← hQeq]
  have hM0 : Real.sqrt ((uy * vz - uz * vy) * (uy * vz - uz * vy) +
      (uz * vx - ux * vz) * (uz * vx - ux * vz) +
      (ux * vy - uy * vx) * (ux * vy - uy * vx)) ≠ 0 :=
    ne_of_gt (Real.sqrt_pos.mpr hQpos)
  simp only [rotOfAxisAngle, hcos, hsin]
  rw [if_neg hM0]
  refine ⟨_, rfl, ?_⟩
  generalize hMg : Real.sqrt ((uy * vz - uz * vy) * (uy * vz - uz * vy) +
      (uz * vx - ux * vz) * (uz * vx - ux * vz) +
      (ux * vy - uy * vx) * (ux * vy - uy * vx)) = M at hM0
  have hM2 : M * M = (uy * vz - uz * vy) * (uy * vz - uz * vy) +
      (uz * vx - ux * vz) * (uz * vx - ux * vz) +
      (ux * vy - uy * vx) * (ux * vy - uy * vx) := by
    rw [← hMg]
    exact Real.mul_self_sqrt hQ0
  simp only [rotate, dot]
  ext <;> simp only
  · field_simp
    linear_combination ((ux * vx + uy * vy + uz * vz) * ux -
        (ux * vy - uy * vx) * uy + (uz * vx - ux * vz) * uz - vx) * hM2 +
      (((uy * vz - uz * vy) * (uy * vz - uz * vy) +
        (uz * vx - ux * vz) * (uz * vx - ux * vz) +
        (ux * vy - uy * vx) * (ux * vy - uy * vx)) * vx) * hu
  · field_simp
    linear_combination ((ux * vy - uy * vx) * ux +
        (ux * vx + uy * vy + uz * vz) * uy - (uy * vz - uz * vy) * uz - vy) * hM2 +
      (((uy * vz - uz * vy) * (uy * vz - uz * vy) +
        (uz * vx - ux * vz) * (uz * vx - ux * vz) +
        (ux * vy - uy * vx) * (ux * vy - uy * vx)) * vy) * hu
  · field_simp
    linear_combination ((uy * vz - uz * vy) * uy - (uz * vx - ux * vz) * ux +
        (ux * vx + uy * vy + uz * vz) * uz - vz) * hM2 +
      (((uy * vz - uz * vy) * (uy * vz - uz * vy) +
        (uz * vx - ux * vz) * (uz * vx - ux * vz) +
        (ux * vy - uy * vx) * (ux * vy - uy * vx)) * vz) * hu

/-- `moveTo` with proportion zero: the scaled angle is zero, so the
constructed matrix is the identity and the starting vector is fixed. -/
lemma rotOfAxisAngle_cross_zero (u v : V3 ℝ)
    (hcr : cross u v ≠ (⟨0, 0, 0⟩ : V3 ℝ)) :
    ∃ R, rotOfAxisAngle (cross u v) (Real.arccos (dot u v) * 0) = .ok R ∧
      rotate R u = u := by
  have hQpos := cross_sq_pos hcr
  have hM0 : Real.sqrt ((cross u v).x * (cross u v).x +
      (cross u v).y * (cross u v).y + (cross u v).z * (cross u v).z) ≠ 0 :=
    ne_of_gt (Real.sqrt_pos.mpr hQpos)
  simp only [rotOfAxisAngle, mul_zero, Real.cos_zero, Real.sin_zero]
  rw [if_neg hM0]
  refine ⟨_, rfl, ?_⟩
  simp only [rotate, dot, sub_self, mul_zero, zero_mul, add_zero, sub_zero]
  ext <;> simp

/-- C7 (amended): for unit-vector points `A` and `B` that are neither
equal nor antipodal (their cross product is nonzero so `moveTo` does
not raise), `moveTo A B 1` succeeds and rotates `A`'s unit vector
exactly onto `B`'s, and `moveTo A B 0` succeeds and leaves `A`'s unit
vector fixed. -/
theorem moveTo_endpoints (A B : SpherePoint)
    (hu : dot A.vec A.vec = 1) (hv : dot B.vec B.vec = 1)
    (hcr : cross A.vec B.vec ≠ (⟨0, 0, 0⟩ : V3 ℝ)) :
    (∃ R, moveTo A B 1 = .ok R ∧ rotate R A.vec = B.vec) ∧
    (∃ R0, moveTo A B 0 = .ok R0 ∧ rotate R0 A.vec = A.vec) :=
  ⟨rotOfAxisAngle_cross_one A.vec B.vec hu hv hcr,
   rotOfAxisAngle_cross_zero A.vec B.vec hcr⟩

/-- C7 witness: moving the x-axis point to the y-axis point. -/
theorem moveTo_endpoints_witness :
    (dot pointX.vec pointX.vec = 1 ∧ dot pointY.vec pointY.vec = 1 ∧
      cross pointX.vec pointY.vec ≠ (⟨0, 0, 0⟩ : V3 ℝ)) ∧
    ((∃ R, moveTo pointX pointY 1 = .ok R ∧
        rotate R pointX.vec = pointY.vec) ∧
     (∃ R0, moveTo pointX pointY 0 = .ok R0 ∧
        rotate R0 pointX.vec = pointX.vec)) :=
  have h1 : dot pointX.vec pointX.vec = 1 := by norm_num [pointX, dot]
  have h2 : dot pointY.vec pointY.vec = 1 := by norm_num [pointY, dot]
  have h3 : cross pointX.vec pointY.vec ≠ (⟨0, 0, 0⟩ : V3 ℝ) := by
    simp only [pointX, pointY, cross]
    intro hcontra
    have := congrArg V3.z hcontra
    norm_num at this
  ⟨⟨h1, h2, h3⟩, moveTo_endpoints pointX pointY h1 h2 h3⟩

/-- C7 counterexample: for `A = B` (here the x-axis point) the cross
product is zero, so `moveTo(A, A, 1)` and `moveTo(A, A, 0)` both raise
the zero-axis `ValueError` instead of yielding a rotation. -/
theorem moveTo_same_point_counterexample :
    moveTo pointX pointX 1 = .error "Axis vector must be non-zero" ∧
    moveTo pointX pointX 0 = .error "Axis vector must be non-zero" := by
  have hcr : cross pointX.vec pointX.vec = (⟨0, 0, 0⟩ : V3 ℝ) := by
    ext <;> norm_num [pointX, cross]
  constructor
  · show rotOfAxisAngle (cross pointX.vec pointX.vec)
        (Real.arccos (dot pointX.vec pointX.vec) * 1) = _
    rw [hcr]
    simp [rotOfAxisAngle]
  · show rotOfAxisAngle (cross pointX.vec pointX.vec)
        (Real.arccos (dot pointX.vec pointX.vec) * 0) = _
    rw [hcr]
    simp [rotOfAxisAngle]

end Claims

end Orrery
